import Mathlib

/-!
Verification of the StockMarketData ETL pipeline.

A shallow embedding of the core logic of the repository:

* `src/dump_bigq.py` — `convert_to_float`, the per-column numeric
  processing of `Price/Open/High/Low`, the `Change` column processing,
  and the BigQuery `schema` list;
* `src/main.py` — `get_soup` (retry loop), `get_stock_link`
  (URL resolution) and the row-acceptance logic of `main`;
* `src/stock_data_scraper/dags/scrapers/stock_data_scraper.py` —
  `StockDataScraper`: the same helpers as above plus `fetch_data`
  (per-stock scraping loop with header adoption) and
  `create_bigquery_dataset_table` (its own `schema` list).

Modelling conventions:

* Python floats are modelled as exact rationals (`ℚ`).  `float(str)` is
  modelled by `parseFloat?` on the decimal-literal subset of Python's
  grammar: optional sign, digits with an optional decimal point, and an
  optional exponent.  The special textual forms (`inf`, `nan`,
  underscores between digits, surrounding whitespace inside `float`)
  are outside the model; every input the claims quantify over lies in
  the modelled subset, and the scraper strips cell whitespace before
  conversion ever sees it.
* A Python exception that a function can raise is modelled by `Except`:
  `Except.error` is an uncaught exception propagating to the caller.
  A function that catches all of its exceptions is total and returns
  `Option`.
* `pandas` Series operations (`.astype(str).str.replace/rstrip/apply`)
  are modelled columnwise on `List String`.
* A scraped HTML row is its list of stripped cell texts; a Python dict
  built by `dict(zip(headers, cols))` followed by
  `data['stock_name'] = name` is modelled as the association list
  `headers.zip cols ++ [("stock_name", name)]` (the headers scraped by
  this pipeline never contain the key `"stock_name"`, so the insert
  never overwrites).
-/

/-! ## Decimal-literal parsing (model of Python `float(str)`) -/

/-- Numeric value of a run of decimal digit characters (most significant
first), as Python reads `"1500"`. -/
def digitsToNat (cs : List Char) : Nat :=
  cs.foldl (fun a c => 10 * a + (c.toNat - 48)) 0

/-- Every character is a decimal digit. -/
def allDigits (cs : List Char) : Bool :=
  cs.all (fun c => c.isDigit)

/-- Split a character list at the first character satisfying `p`,
returning the part before it and, when found, the separator together
with the part after it. -/
def splitAtPred (p : Char → Bool) : List Char → List Char × Option (Char × List Char)
  | [] => ([], none)
  | c :: rest =>
    if p c then ([], some (c, rest))
    else (c :: (splitAtPred p rest).1, (splitAtPred p rest).2)

/-- Parse the exponent part of a float literal: an optional sign
followed by a nonempty digit run. -/
def parseExp (cs : List Char) : Option Int :=
  match cs with
  | '+' :: rest => if rest ≠ [] ∧ allDigits rest then some (digitsToNat rest : Int) else none
  | '-' :: rest => if rest ≠ [] ∧ allDigits rest then some (-(digitsToNat rest : Int)) else none
  | _ => if cs ≠ [] ∧ allDigits cs then some (digitsToNat cs : Int) else none

/-- Parse the mantissa of a float literal: a digit run, optionally with
a decimal point (`"1"`, `"1.5"`, `"1."`, `".5"`; just `"."` is
rejected, as Python rejects it). -/
def parseMantissa (cs : List Char) : Option ℚ :=
  match splitAtPred (fun c => c = '.') cs with
  | (intPart, none) =>
    if intPart ≠ [] ∧ allDigits intPart then some (digitsToNat intPart : ℚ) else none
  | (intPart, some (_, fracPart)) =>
    if (intPart ≠ [] ∨ fracPart ≠ []) ∧ allDigits intPart ∧ allDigits fracPart then
      some ((digitsToNat intPart : ℚ) + (digitsToNat fracPart : ℚ) / (10 : ℚ) ^ fracPart.length)
    else none

/-- Parse an unsigned float literal: mantissa with an optional
`e`/`E`-exponent. -/
def parseUnsignedFloat (cs : List Char) : Option ℚ :=
  match splitAtPred (fun c => c = 'e' ∨ c = 'E') cs with
  | (m, none) => parseMantissa m
  | (m, some (_, e)) =>
    match parseMantissa m, parseExp e with
    | some q, some ex => some (q * (10 : ℚ) ^ ex)
    | _, _ => none

/-- Model of Python `float(s)` on the decimal-literal subset: `some`
the exact rational value on success, `none` where Python raises
`ValueError`. -/
def parseFloat? (s : String) : Option ℚ :=
  match s.data with
  | '+' :: rest => parseUnsignedFloat rest
  | '-' :: rest => (parseUnsignedFloat rest).map (fun q => -q)
  | cs => parseUnsignedFloat cs

/-- Unfolding set used to evaluate the parser on concrete strings. -/
example : parseFloat? "1.5" = some (3 / 2 : ℚ) := by
  simp [parseFloat?, parseUnsignedFloat, parseMantissa, parseExp, splitAtPred, digitsToNat,
    allDigits]
  norm_num
example : parseFloat? "1,500" = none := by decide
example : parseFloat? "abc" = none := by decide
example : parseFloat? "" = none := by decide

/-! ## String helpers (models of the Python string methods used) -/

/-- Model of Python `s.strip()`: drop whitespace from both ends. -/
def pyStrip (s : String) : String :=
  ⟨((s.data.dropWhile Char.isWhitespace).reverse.dropWhile Char.isWhitespace).reverse⟩

/-- Model of Python `s.replace(',', '')`. -/
def removeCommas (s : String) : String :=
  ⟨s.data.filter (fun c => c ≠ ',')⟩

/-- Model of Python `s.rstrip('%')`: drop every trailing `'%'`. -/
def rstripPercent (s : String) : String :=
  ⟨(s.data.reverse.dropWhile (fun c => c = '%')).reverse⟩

/-- Model of Python `s[:-1]`: drop the last character. -/
def pyDropLast (s : String) : String :=
  ⟨s.data.dropLast⟩

/-- Model of Python `s.endswith(c)` for a single character `c`: the
last character of `s` is `c`. -/
def endsWithChar (s : String) (c : Char) : Bool :=
  s.data.getLast? == some c

/-- Model of Python `s.startswith(pre)`. -/
def pyStartsWith (s pre : String) : Bool :=
  s.data.take pre.data.length == pre.data

example : removeCommas "1,500" = "1500" := by decide
example : rstripPercent "3.2%" = "3.2" := by decide
example : pyDropLast "1.5M" = "1.5" := by decide
example : endsWithChar "1.5M" 'M' = true := by decide
example : endsWithChar "1.5m" 'M' = false := by decide

/-! ## `convert_to_float` (src/dump_bigq.py lines 70–86 and
src/stock_data_scraper/dags/scrapers/stock_data_scraper.py lines
206–223; the two definitions are character-for-character identical) -/

/-- Model of `convert_to_float(x)` on string cells.

```python
if pd.isna(x) or x == '' or x == 'nan':
    return None
try:
    x = str(x).strip()
    if x.endswith('K'):   return float(x[:-1]) * 1e3
    elif x.endswith('M'): return float(x[:-1]) * 1e6
    elif x.endswith('B'): return float(x[:-1]) * 1e9
    else:                 return float(x.replace(',', ''))
except (ValueError, TypeError):
    return None
```

Both call sites apply it after `.astype(str)`, so the argument is
always a string and `pd.isna(x)` is false.  `float` failure raises
`ValueError`, caught by the handler, hence `Option.map` over the parse
result.  The multipliers `1e3/1e6/1e9` are the exact integers in ℚ. -/
def convert_to_float (x : String) : Option ℚ :=
  if x = "" ∨ x = "nan" then none
  else
    let x := pyStrip x
    if endsWithChar x 'K' then (parseFloat? (pyDropLast x)).map (fun q => q * 1000)
    else if endsWithChar x 'M' then (parseFloat? (pyDropLast x)).map (fun q => q * 1000000)
    else if endsWithChar x 'B' then (parseFloat? (pyDropLast x)).map (fun q => q * 1000000000)
    else parseFloat? (removeCommas x)

example : convert_to_float "" = none := by decide
example : convert_to_float "nan" = none := by decide
example : convert_to_float "abc" = none := by decide
example : convert_to_float "1,500K" = none := by decide
example : convert_to_float "1.5k" = none := by decide

/-! ## Per-column processing of `process_data` / the dump script
(src/dump_bigq.py lines 101–127, stock_data_scraper.py lines 243–269) -/

/-- One cell of a `Price`/`Open`/`High`/`Low` column, after the
columnwise `.str.replace(',', '')`:
`lambda x: float(x) if x and x != 'nan' else None`.
`float(x)` may raise `ValueError`, modelled by `Except.error`. -/
def priceCellConv (x : String) : Except String (Option ℚ) :=
  let x := removeCommas x
  if x = "" ∨ x = "nan" then Except.ok none
  else
    match parseFloat? x with
    | some q => Except.ok (some q)
    | none => Except.error "ValueError"

/-- A whole `Price`/`Open`/`High`/`Low` column.  The surrounding
`try/except` catches any cell's exception, prints a warning and leaves
the column unconverted: `none` models the caught-and-abandoned case,
`some` the fully converted column. -/
def processPriceColumn : List String → Option (List (Option ℚ))
  | [] => some []
  | x :: rest =>
    match priceCellConv x with
    | Except.error _ => none
    | Except.ok v => (processPriceColumn rest).map (fun vs => v :: vs)

/-- One cell of the `Change` column, after the columnwise
`.str.rstrip('%')`:
`lambda x: float(x) if x and x != 'nan' else None`.
No handler surrounds this conversion in either file, so the
`Except.error` of an unparseable cell propagates to the caller. -/
def changeCellConv (x : String) : Except String (Option ℚ) :=
  let x := rstripPercent x
  if x = "" ∨ x = "nan" then Except.ok none
  else
    match parseFloat? x with
    | some q => Except.ok (some q)
    | none => Except.error "ValueError"

/-- The whole `Change` column: the first unparseable cell raises and
the remaining rows are never processed. -/
def processChangeColumn : List String → Except String (List (Option ℚ))
  | [] => Except.ok []
  | x :: rest =>
    match changeCellConv x with
    | Except.error e => Except.error e
    | Except.ok v =>
      match processChangeColumn rest with
      | Except.error e => Except.error e
      | Except.ok vs => Except.ok (v :: vs)

/-! ## BigQuery schemas (src/dump_bigq.py lines 47–56 and
stock_data_scraper.py lines 183–192) -/

/-- One `bigquery.SchemaField(name, ftype, description=...)`. -/
structure SchemaField where
  name : String
  ftype : String
  description : String
deriving DecidableEq, Repr

namespace DumpBigq

/-- The `schema` list of `src/dump_bigq.py`. -/
def schema : List SchemaField :=
  [⟨"stock_name", "STRING", "Name of the stock"⟩,
   ⟨"Date", "DATE", "Date of the stock data"⟩,
   ⟨"Price", "FLOAT", "Closing price"⟩,
   ⟨"Open", "FLOAT", "Opening price"⟩,
   ⟨"High", "FLOAT", "High price"⟩,
   ⟨"Low", "FLOAT", "Low price"⟩,
   ⟨"Vol", "FLOAT", "Trading volume"⟩,
   ⟨"Change", "FLOAT", "Percentage change"⟩]

end DumpBigq

namespace Scraper

/-- The `schema` list built inside
`StockDataScraper.create_bigquery_dataset_table`. -/
def schema : List SchemaField :=
  [⟨"stock_name", "STRING", "Name of the stock"⟩,
   ⟨"Date", "DATE", "Date of the stock data"⟩,
   ⟨"Open", "FLOAT", "Opening price"⟩,
   ⟨"High", "FLOAT", "Highest price"⟩,
   ⟨"Low", "FLOAT", "Lowest price"⟩,
   ⟨"Price", "FLOAT", "Closing price"⟩,
   ⟨"Vol", "FLOAT", "Trading volume"⟩,
   ⟨"Change", "FLOAT", "Percentage change"⟩]

end Scraper

/-! ## URL resolution (src/main.py lines 26–46 and
stock_data_scraper.py lines 61–81; identical modulo `self.base_url`) -/

/-- Model of the link construction in `get_stock_link`:

```python
if href.startswith('http'):   link = f"{href}-historical-data"
elif href.startswith('/'):    link = f"{base_url}{href}-historical-data"
else:                         link = f"{base_url}/{href}-historical-data"
```
-/
def get_stock_link (href base_url : String) : String :=
  if pyStartsWith href "http" then href ++ "-historical-data"
  else if pyStartsWith href "/" then base_url ++ href ++ "-historical-data"
  else base_url ++ "/" ++ href ++ "-historical-data"

/-! ## Row acceptance and the per-stock scraping loop
(src/main.py lines 83–115 and stock_data_scraper.py lines 101–147) -/

/-- A labelled record: `dict(zip(headers, cols))` plus
`data['stock_name'] = stock_name`, as an association list. -/
def mkRecord (headers : List String) (stock_name : String) (cols : List String) :
    List (String × String) :=
  headers.zip cols ++ [("stock_name", stock_name)]

/-- The inner row loop: a row is appended to the batch exactly when
`len(cols) == len(headers)`; other rows are silently discarded. -/
def acceptedRows (headers : List String) (stock_name : String) (rows : List (List String)) :
    List (List (String × String)) :=
  rows.filterMap (fun cols =>
    if cols.length = headers.length then some (mkRecord headers stock_name cols) else none)

/-- Outcome of fetching and locating one stock's data table.
`fetchError` models a `get_soup` exception (caught by the per-stock
`try/except`); `noTable` models `soup.find("table", class_=regex)`
returning nothing; `table thead? tbody?` carries the header texts when
a `thead` exists and the rows (as cell-text lists) when a `tbody`
exists. -/
inductive PageResult where
  | fetchError : PageResult
  | noTable : PageResult
  | table : Option (List String) → Option (List (List String)) → PageResult
deriving DecidableEq, Repr

/-- The scraper's mutable state across the stock loop:
`self.headers` and `self.total_data`. -/
structure ScrapeState where
  headers : List String
  total_data : List (List (String × String))
deriving DecidableEq, Repr

/-- Processing of one stock inside the loop of `fetch_data` / `main`:

* a fetch exception or a missing table skips the stock (`continue`),
  leaving the state untouched;
* otherwise, if `self.headers` is empty and the table has a `thead`,
  its cell texts are adopted as the run-wide headers;
* a missing `tbody` then skips the stock (`continue`);
* otherwise each row passes the width check of `acceptedRows` and the
  accepted records are appended to `self.total_data`. -/
def processStock (st : ScrapeState) (stock_name : String) (pr : PageResult) : ScrapeState :=
  match pr with
  | PageResult.fetchError => st
  | PageResult.noTable => st
  | PageResult.table thead? tbody? =>
    let headers :=
      if st.headers.isEmpty then
        match thead? with
        | some hs => hs
        | none => st.headers
      else st.headers
    match tbody? with
    | none => { headers := headers, total_data := st.total_data }
    | some rows =>
      { headers := headers,
        total_data := st.total_data ++ acceptedRows headers stock_name rows }

/-- The whole stock loop, folded over the discovered stock list. -/
def processList (st : ScrapeState) (stocks : List (String × PageResult)) : ScrapeState :=
  stocks.foldl (fun s p => processStock s p.1 p.2) st

/-- Model of `fetch_data`: `none` for the landing page models
`soup.find("tbody", class_=regex)` finding nothing (the run aborts with
failure and no stock is processed); otherwise every discovered stock is
processed in order and the run succeeds iff any record was collected. -/
def fetch_data (landing : Option (List (String × PageResult))) : Bool × ScrapeState :=
  match landing with
  | none => (false, ⟨[], []⟩)
  | some stocks =>
    let st := processList ⟨[], []⟩ stocks
    (!st.total_data.isEmpty, st)

/-! ## `get_soup` retry loop (src/main.py lines 7–24 and
stock_data_scraper.py lines 47–59) -/

/-- The body of `for i in range(max_retries)`, with `i` the current
attempt index, `fuel` the remaining iterations and `slept` the seconds
spent in `time.sleep(3)` so far.  `attempts i` is the outcome of the
`i`-th HTTP request (`Except.error` models any exception out of
`requests.get` / `raise_for_status`).  A success returns the parsed
document at once; a failure on the last attempt re-raises; any other
failure sleeps 3 seconds and retries.  `Except.ok none` is Python's
implicit `return None` when the loop runs zero times. -/
def get_soupGo {α : Type} (attempts : Nat → Except String α) :
    Nat → Nat → Nat → Except String (Option α) × Nat
  | _, 0, slept => (Except.ok none, slept)
  | i, fuel + 1, slept =>
    match attempts i with
    | Except.ok d => (Except.ok (some d), slept)
    | Except.error e =>
      if fuel = 0 then (Except.error e, slept)
      else get_soupGo attempts (i + 1) fuel (slept + 3)

/-- Model of `get_soup(url, max_retries)`: the retry loop started at attempt 0
with no sleep yet, returning the outcome together with the total
back-off delay.  The source's default budget is `max_retries = 3`. -/
def get_soup {α : Type} (attempts : Nat → Except String α) (max_retries : Nat) :
    Except String (Option α) × Nat :=
  get_soupGo attempts 0 max_retries 0

/-! ## Support lemmas -/

/-- Characters that can occur in a successfully parsed float literal. -/
def allowedChar (c : Char) : Bool :=
  c.isDigit || c = '+' || c = '-' || c = '.' || c = 'e' || c = 'E'

theorem splitAtPred_eq_none {p : Char → Bool} :
    ∀ {cs a : List Char}, splitAtPred p cs = (a, none) → cs = a := by
  intro cs
  induction cs with
  | nil =>
    intro a h
    rw [splitAtPred, Prod.mk.injEq] at h
    exact h.1
  | cons c rest ih =>
    intro a h
    by_cases hp : p c = true
    · simp [splitAtPred, hp] at h
    · rw [splitAtPred, if_neg hp, Prod.mk.injEq] at h
      obtain ⟨h1, h2⟩ := h
      have h3 : splitAtPred p rest = ((splitAtPred p rest).1, none) := by
        rw [← h2]
      rw [← h1]
      exact congrArg (fun l => c :: l) (ih h3)

theorem splitAtPred_eq_some {p : Char → Bool} :
    ∀ {cs a b : List Char} {c : Char},
      splitAtPred p cs = (a, some (c, b)) → cs = a ++ c :: b ∧ p c = true := by
  intro cs
  induction cs with
  | nil =>
    intro a b c h
    rw [splitAtPred, Prod.mk.injEq] at h
    exact absurd h.2 (by simp)
  | cons x rest ih =>
    intro a b c h
    by_cases hp : p x = true
    · rw [splitAtPred, if_pos hp, Prod.mk.injEq] at h
      obtain ⟨h1, h2⟩ := h
      obtain ⟨hc, hb⟩ := Prod.mk.injEq .. ▸ (Option.some.injEq .. ▸ h2.symm).symm
      subst h1
      refine ⟨?_, hc ▸ hp⟩
      rw [hc, hb]
      rfl
    · rw [splitAtPred, if_neg hp, Prod.mk.injEq] at h
      obtain ⟨h1, h2⟩ := h
      have h3 : splitAtPred p rest = ((splitAtPred p rest).1, some (c, b)) := by
        rw [← h2]
      obtain ⟨ha, hpc⟩ := ih h3
      refine ⟨?_, hpc⟩
      rw [← h1]
      show x :: rest = x :: ((splitAtPred p rest).1 ++ c :: b)
      exact congrArg (fun l => x :: l) ha

theorem allDigits_mem {cs : List Char} (h : allDigits cs = true) {c : Char} (hc : c ∈ cs) :
    c.isDigit = true := by
  rw [allDigits, List.all_eq_true] at h
  exact h c hc

theorem parseExp_chars : ∀ {e : List Char} {v : Int}, parseExp e = some v →
    ∀ c ∈ e, allowedChar c = true := by
  intro e v h c hc
  unfold parseExp at h
  split at h
  · split at h
    · rename_i hcond
      rcases List.mem_cons.mp hc with h1 | h1
      · subst h1; decide
      · have hd := allDigits_mem hcond.2 h1
        simp [allowedChar, hd]
    · exact absurd h (by simp)
  · split at h
    · rename_i hcond
      rcases List.mem_cons.mp hc with h1 | h1
      · subst h1; decide
      · have hd := allDigits_mem hcond.2 h1
        simp [allowedChar, hd]
    · exact absurd h (by simp)
  · split at h
    · rename_i hcond
      have hd := allDigits_mem hcond.2 hc
      simp [allowedChar, hd]
    · exact absurd h (by simp)

theorem parseMantissa_chars : ∀ {m : List Char} {v : ℚ}, parseMantissa m = some v →
    ∀ c ∈ m, allowedChar c = true := by
  intro m v h c hc
  unfold parseMantissa at h
  split at h
  · rename_i intPart hsplit
    split at h
    · rename_i hcond
      have hm := splitAtPred_eq_none hsplit
      have hd := allDigits_mem hcond.2 (hm ▸ hc)
      simp [allowedChar, hd]
    · exact absurd h (by simp)
  · rename_i intPart sep fracPart hsplit
    split at h
    · rename_i hcond
      obtain ⟨hm, hsep⟩ := splitAtPred_eq_some hsplit
      have hsep' : sep = '.' := of_decide_eq_true hsep
      rw [hm] at hc
      rcases List.mem_append.mp hc with h1 | h1
      · have hd := allDigits_mem hcond.2.1 h1
        simp [allowedChar, hd]
      · rcases List.mem_cons.mp h1 with h2 | h2
        · subst h2; subst hsep'; decide
        · have hd := allDigits_mem hcond.2.2 h2
          simp [allowedChar, hd]
    · exact absurd h (by simp)

theorem parseUnsignedFloat_chars : ∀ {cs : List Char} {v : ℚ},
    parseUnsignedFloat cs = some v → ∀ c ∈ cs, allowedChar c = true := by
  intro cs v h c hc
  unfold parseUnsignedFloat at h
  split at h
  · rename_i m hsplit
    have hm := splitAtPred_eq_none hsplit
    exact parseMantissa_chars h c (hm ▸ hc)
  · rename_i m sep e hsplit
    obtain ⟨hcs, hsep⟩ := splitAtPred_eq_some hsplit
    split at h
    · rename_i q ex hman hexp
      rw [hcs] at hc
      rcases List.mem_append.mp hc with h1 | h1
      · exact parseMantissa_chars hman c h1
      · rcases List.mem_cons.mp h1 with h2 | h2
        · subst h2
          rcases of_decide_eq_true hsep with h3 | h3 <;> rw [h3] <;> decide
        · exact parseExp_chars hexp c h2
    · exact absurd h (by simp)

theorem parseFloat?_chars : ∀ {s : String} {v : ℚ}, parseFloat? s = some v →
    ∀ c ∈ s.data, allowedChar c = true := by
  intro s v h c hc
  unfold parseFloat? at h
  split at h
  · rename_i rest heq
    rw [heq] at hc
    rcases List.mem_cons.mp hc with h1 | h1
    · subst h1; decide
    · exact parseUnsignedFloat_chars h c h1
  · rename_i rest heq
    rw [heq] at hc
    obtain ⟨q, hq, _⟩ := Option.map_eq_some'.mp h
    rcases List.mem_cons.mp hc with h1 | h1
    · subst h1; decide
    · exact parseUnsignedFloat_chars hq c h1
  · exact parseUnsignedFloat_chars h c hc

/-- A string containing any character outside the float-literal
alphabet fails to parse. -/
theorem parseFloat?_eq_none_of_not_allowed {s : String} {c : Char} (hmem : c ∈ s.data)
    (hc : allowedChar c = false) : parseFloat? s = none := by
  cases hp : parseFloat? s with
  | none => rfl
  | some q => exact absurd (parseFloat?_chars hp c hmem) (by rw [hc]; exact Bool.false_ne_true)

/-- A comma can never occur in a successfully parsed float literal:
the concrete failure behind the `"1,500K"` counterexample. -/
theorem parseFloat?_comma {s : String} (h : ',' ∈ s.data) : parseFloat? s = none :=
  parseFloat?_eq_none_of_not_allowed h (by decide)

/-- The last character of a list is a member of it. -/
theorem getLast?_mem_self {l : List Char} {c : Char} (h : l.getLast? = some c) : c ∈ l := by
  obtain ⟨hne, hlast⟩ := List.mem_getLast?_eq_getLast (Option.mem_def.mpr h)
  exact hlast ▸ List.getLast_mem hne

/-- A nonempty stripped cell whose last character is not `'n'` passes
the `x == '' or x == 'nan'` guard of `convert_to_float`. -/
theorem guard_false_of_getLast {s : String} {c : Char}
    (h : (pyStrip s).data.getLast? = some c) (hc : c ≠ 'n') : ¬(s = "" ∨ s = "nan") := by
  rintro (rfl | rfl)
  · rw [show (pyStrip "").data.getLast? = none by decide] at h
    exact Option.noConfusion h
  · rw [show (pyStrip "nan").data.getLast? = some 'n' by decide] at h
    exact hc (Option.some.inj h.symm)

theorem convert_to_float_K {s : String} (h : endsWithChar (pyStrip s) 'K' = true) :
    convert_to_float s = (parseFloat? (pyDropLast (pyStrip s))).map (fun q => q * 1000) := by
  have hlast : (pyStrip s).data.getLast? = some 'K' := by
    simpa [endsWithChar] using h
  have hg := guard_false_of_getLast hlast (by decide)
  unfold convert_to_float
  rw [if_neg hg]
  simp only [h, if_true]

theorem convert_to_float_M {s : String} (h : endsWithChar (pyStrip s) 'M' = true) :
    convert_to_float s = (parseFloat? (pyDropLast (pyStrip s))).map (fun q => q * 1000000) := by
  have hlast : (pyStrip s).data.getLast? = some 'M' := by
    simpa [endsWithChar] using h
  have hg := guard_false_of_getLast hlast (by decide)
  have hK : endsWithChar (pyStrip s) 'K' = false := by
    simp [endsWithChar, hlast]
  unfold convert_to_float
  rw [if_neg hg]
  simp only [h, hK, if_true, Bool.false_eq_true, if_false]

theorem convert_to_float_B {s : String} (h : endsWithChar (pyStrip s) 'B' = true) :
    convert_to_float s = (parseFloat? (pyDropLast (pyStrip s))).map (fun q => q * 1000000000) := by
  have hlast : (pyStrip s).data.getLast? = some 'B' := by
    simpa [endsWithChar] using h
  have hg := guard_false_of_getLast hlast (by decide)
  have hK : endsWithChar (pyStrip s) 'K' = false := by
    simp [endsWithChar, hlast]
  have hM : endsWithChar (pyStrip s) 'M' = false := by
    simp [endsWithChar, hlast]
  unfold convert_to_float
  rw [if_neg hg]
  simp only [h, hK, hM, if_true, Bool.false_eq_true, if_false]

theorem convert_to_float_plain {s : String} (hg : ¬(s = "" ∨ s = "nan"))
    (hK : endsWithChar (pyStrip s) 'K' = false)
    (hM : endsWithChar (pyStrip s) 'M' = false)
    (hB : endsWithChar (pyStrip s) 'B' = false) :
    convert_to_float s = parseFloat? (removeCommas (pyStrip s)) := by
  unfold convert_to_float
  rw [if_neg hg]
  simp only [hK, hM, hB, Bool.false_eq_true, if_false]

/-! ## Claim theorems -/

/-- C4: For every volume cell input whose stripped text ends in `'K'`,
`'M'`, or `'B'` with a parseable numeric prefix, `convert_to_float`
returns the prefix times 1e3, 1e6, 1e9 respectively; in particular
`"1.5M"` yields `1500000`. -/
theorem c4_volume_suffix_expansion (s : String) (q : ℚ) :
    (endsWithChar (pyStrip s) 'K' = true → parseFloat? (pyDropLast (pyStrip s)) = some q →
      convert_to_float s = some (q * 1000)) ∧
    (endsWithChar (pyStrip s) 'M' = true → parseFloat? (pyDropLast (pyStrip s)) = some q →
      convert_to_float s = some (q * 1000000)) ∧
    (endsWithChar (pyStrip s) 'B' = true → parseFloat? (pyDropLast (pyStrip s)) = some q →
      convert_to_float s = some (q * 1000000000)) ∧
    convert_to_float "1.5M" = some (1500000 : ℚ) := by
  refine ⟨?_, ?_, ?_, ?_⟩
  · intro h hq
    rw [convert_to_float_K h, hq, Option.map_some']
  · intro h hq
    rw [convert_to_float_M h, hq, Option.map_some']
  · intro h hq
    rw [convert_to_float_B h, hq, Option.map_some']
  · rw [convert_to_float_M (by decide), show pyDropLast (pyStrip "1.5M") = "1.5" by decide]
    rw [show parseFloat? "1.5" = some (3 / 2 : ℚ) by
      simp [parseFloat?, parseUnsignedFloat, parseMantissa, splitAtPred, digitsToNat, allDigits]
      norm_num]
    rw [Option.map_some']
    norm_num

/-- Witness for C4 at concrete inputs for each suffix. -/
theorem c4_witness :
    convert_to_float "2K" = some (2000 : ℚ) ∧
    convert_to_float "1.5M" = some (1500000 : ℚ) ∧
    convert_to_float "3B" = some (3000000000 : ℚ) := by
  have h2 : parseFloat? (pyDropLast (pyStrip "2K")) = some (2 : ℚ) := by
    rw [show pyDropLast (pyStrip "2K") = "2" by decide]
    simp [parseFloat?, parseUnsignedFloat, parseMantissa, splitAtPred, digitsToNat, allDigits]
  have h3 : parseFloat? (pyDropLast (pyStrip "3B")) = some (3 : ℚ) := by
    rw [show pyDropLast (pyStrip "3B") = "3" by decide]
    simp [parseFloat?, parseUnsignedFloat, parseMantissa, splitAtPred, digitsToNat, allDigits]
  refine ⟨?_, (c4_volume_suffix_expansion "1.5M" 0).2.2.2, ?_⟩
  · rw [(c4_volume_suffix_expansion "2K" 2).1 (by decide) h2]
    norm_num
  · rw [(c4_volume_suffix_expansion "3B" 3).2.2.1 (by decide) h3]
    norm_num

/-- C2 counterexample: the claim predicts
`convert_to_float "1,500K" = 1500 * 1e3`; the code checks the `K`
suffix before any comma handling, `float("1,500")` raises, the handler
returns `None`. -/
theorem c2_counterexample :
    convert_to_float "1,500K" = none ∧ convert_to_float "1,500K" ≠ some (1500000 : ℚ) := by
  have h : convert_to_float "1,500K" = none := by decide
  refine ⟨h, ?_⟩
  rw [h]
  exact fun hc => Option.noConfusion hc

/-- C2 amended: thousands-separator commas are stripped only in the
plain-number branch (no magnitude suffix); a volume cell whose text
both contains a comma and ends with `K`/`M`/`B` keeps the comma in the
numeric prefix, the prefix fails to parse, and conversion yields
no-value.  Comma-only cells parse in the plain branch
(`"1,500"` ↦ `1500`). -/
theorem c2_amended_comma_before_suffix (s : String) :
    (',' ∈ s.data → parseFloat? s = none) ∧
    ((endsWithChar (pyStrip s) 'K' = true ∨ endsWithChar (pyStrip s) 'M' = true ∨
        endsWithChar (pyStrip s) 'B' = true) →
      ',' ∈ (pyDropLast (pyStrip s)).data → convert_to_float s = none) ∧
    convert_to_float "1,500" = some (1500 : ℚ) ∧
    convert_to_float "1,500K" = none := by
  refine ⟨fun h => parseFloat?_comma h, ?_, ?_, by decide⟩
  · intro hsuf hcomma
    have hpre : parseFloat? (pyDropLast (pyStrip s)) = none := parseFloat?_comma hcomma
    rcases hsuf with h | h | h
    · rw [convert_to_float_K h, hpre, Option.map_none']
    · rw [convert_to_float_M h, hpre, Option.map_none']
    · rw [convert_to_float_B h, hpre, Option.map_none']
  · rw [convert_to_float_plain (by decide) (by decide) (by decide) (by decide)]
    rw [show removeCommas (pyStrip "1,500") = "1500" by decide]
    simp [parseFloat?, parseUnsignedFloat, parseMantissa, splitAtPred, digitsToNat, allDigits]

/-- Witness for C2 amended at `"1,500K"` / `"1,500"`. -/
theorem c2_amended_witness :
    parseFloat? "1,500" = none ∧ convert_to_float "1,500K" = none ∧
    convert_to_float "1,500" = some (1500 : ℚ) := by
  refine ⟨(c2_amended_comma_before_suffix "1,500").1 (by decide), ?_, ?_⟩
  · exact (c2_amended_comma_before_suffix "1,500K").2.1 (Or.inl (by decide)) (by decide)
  · exact (c2_amended_comma_before_suffix "1,500").2.2.1

/-- C10: magnitude-suffix matching is case-sensitive.  For every input
whose stripped text ends in lowercase `'k'`, `'m'` or `'b'`,
`convert_to_float` takes the plain-parse branch, the parse of the full
text fails, and the result is the no-value state; uppercase `"1.5K"`
by contrast is expanded. -/
theorem c10_lowercase_suffix_case_sensitive (s : String) (c : Char) :
    ((pyStrip s).data.getLast? = some c → (c = 'k' ∨ c = 'm' ∨ c = 'b') →
      convert_to_float s = parseFloat? (removeCommas (pyStrip s)) ∧
      parseFloat? (removeCommas (pyStrip s)) = none ∧
      convert_to_float s = none) ∧
    convert_to_float "1.5k" = none ∧
    convert_to_float "1.5K" = some (1500 : ℚ) := by
  refine ⟨?_, by decide, ?_⟩
  · intro h hc
    have hn : c ≠ 'n' := by rcases hc with rfl | rfl | rfl <;> decide
    have hg := guard_false_of_getLast h hn
    have hK : endsWithChar (pyStrip s) 'K' = false := by
      have : c ≠ 'K' := by rcases hc with rfl | rfl | rfl <;> decide
      simp [endsWithChar, h, this]
    have hM : endsWithChar (pyStrip s) 'M' = false := by
      have : c ≠ 'M' := by rcases hc with rfl | rfl | rfl <;> decide
      simp [endsWithChar, h, this]
    have hB : endsWithChar (pyStrip s) 'B' = false := by
      have : c ≠ 'B' := by rcases hc with rfl | rfl | rfl <;> decide
      simp [endsWithChar, h, this]
    have heq := convert_to_float_plain hg hK hM hB
    have hmem : c ∈ (removeCommas (pyStrip s)).data := by
      have h1 : c ∈ (pyStrip s).data := getLast?_mem_self h
      have h2 : c ≠ ',' := by rcases hc with rfl | rfl | rfl <;> decide
      exact List.mem_filter.mpr ⟨h1, by simpa using h2⟩
    have hnone : parseFloat? (removeCommas (pyStrip s)) = none :=
      parseFloat?_eq_none_of_not_allowed hmem
        (by rcases hc with rfl | rfl | rfl <;> decide)
    exact ⟨heq, hnone, heq.trans hnone⟩
  · rw [convert_to_float_K (by decide), show pyDropLast (pyStrip "1.5K") = "1.5" by decide]
    rw [show parseFloat? "1.5" = some (3 / 2 : ℚ) by
      simp [parseFloat?, parseUnsignedFloat, parseMantissa, splitAtPred, digitsToNat, allDigits]
      norm_num]
    rw [Option.map_some']
    norm_num

/-- Witness for C10 at `"1.5k"`. -/
theorem c10_witness :
    convert_to_float "1.5k" = parseFloat? (removeCommas (pyStrip "1.5k")) ∧
    parseFloat? (removeCommas (pyStrip "1.5k")) = none ∧
    convert_to_float "1.5k" = none :=
  (c10_lowercase_suffix_case_sensitive "1.5k" 'k').1 (by decide) (Or.inl rfl)

/-- C1 counterexample: the claim says conversion of every cell of every
numeric column yields a number or `None` and never an exception, with
the remaining rows still processed.  For the `Change` column the
per-cell lambda `float(x) if x and x != 'nan' else None` has no
surrounding handler: on the unparseable cell `"abc"` it raises
`ValueError` (modelled `Except.error`), and the following row `"5.0"`
is never converted. -/
theorem c1_counterexample :
    processChangeColumn ["abc", "5.0"] = Except.error "ValueError" := rfl

/-- C1 amended: `convert_to_float` (the `Vol` column) is total and
yields no-value — never zero, never an exception — for empty, `"nan"`
and unparseable input; a `Price/Open/High/Low` column's exception on an
unparseable cell is caught at column level, abandoning the whole
column's conversion (`none`) instead of yielding a per-cell no-value;
the `Change` column raises an uncaught exception on any cell that is
nonempty, not `"nan"` after `%`-stripping, and unparseable. -/
theorem c1_amended_conversion_error_behavior (s x : String) (col : List String) :
    (s = "" ∨ s = "nan" → convert_to_float s = none) ∧
    (endsWithChar (pyStrip s) 'K' = false → endsWithChar (pyStrip s) 'M' = false →
      endsWithChar (pyStrip s) 'B' = false → parseFloat? (removeCommas (pyStrip s)) = none →
      convert_to_float s = none) ∧
    (x ∈ col → priceCellConv x = Except.error "ValueError" → processPriceColumn col = none) ∧
    (rstripPercent x ≠ "" → rstripPercent x ≠ "nan" → parseFloat? (rstripPercent x) = none →
      changeCellConv x = Except.error "ValueError") ∧
    (x ∈ col → changeCellConv x = Except.error "ValueError" →
      ∃ e, processChangeColumn col = Except.error e) := by
  refine ⟨?_, ?_, ?_, ?_, ?_⟩
  · intro h
    rw [convert_to_float, if_pos h]
  · intro hK hM hB hnone
    by_cases hg : s = "" ∨ s = "nan"
    · rw [convert_to_float, if_pos hg]
    · rw [convert_to_float_plain hg hK hM hB, hnone]
  · intro hmem herr
    induction col with
    | nil => exact absurd hmem (List.not_mem_nil x)
    | cons a rest ih =>
      rcases List.mem_cons.mp hmem with rfl | h1
      · rw [processPriceColumn, herr]
      · rw [processPriceColumn, ih h1]
        cases priceCellConv a <;> rfl
  · intro h1 h2 h3
    rw [changeCellConv]
    rw [if_neg (by exact fun h => h.elim h1 h2)]
    rw [h3]
  · intro hmem herr
    induction col with
    | nil => exact absurd hmem (List.not_mem_nil x)
    | cons a rest ih =>
      rcases List.mem_cons.mp hmem with rfl | h1
      · exact ⟨"ValueError", by rw [processChangeColumn, herr]⟩
      · obtain ⟨e, he⟩ := ih h1
        rw [processChangeColumn]
        cases ha : changeCellConv a with
        | error e' => exact ⟨e', rfl⟩
        | ok v => exact ⟨e, by rw [he]⟩

/-- Witness for C1 amended at `""`, `"abc"` and the one-cell column
`["abc"]`. -/
theorem c1_amended_witness :
    convert_to_float "" = none ∧
    convert_to_float "abc" = none ∧
    processPriceColumn ["abc"] = none ∧
    changeCellConv "abc" = Except.error "ValueError" ∧
    (∃ e, processChangeColumn ["abc"] = Except.error e) := by
  refine ⟨(c1_amended_conversion_error_behavior "" "abc" ["abc"]).1 (Or.inl rfl),
    (c1_amended_conversion_error_behavior "abc" "abc" ["abc"]).2.1
      (by decide) (by decide) (by decide) (by decide),
    (c1_amended_conversion_error_behavior "" "abc" ["abc"]).2.2.1 (by simp) rfl,
    (c1_amended_conversion_error_behavior "" "abc" ["abc"]).2.2.2.1
      (by decide) (by decide) (by decide),
    (c1_amended_conversion_error_behavior "" "abc" ["abc"]).2.2.2.2 (by simp) rfl⟩

/-- C3 counterexample: the two table-creating code paths do not produce
the same ordered schema.  `dump_bigq.py` orders the decimal columns
`Price, Open, High, Low`; `StockDataScraper.create_bigquery_dataset_table`
orders them `Open, High, Low, Price`. -/
theorem c3_counterexample :
    DumpBigq.schema.map SchemaField.name =
      ["stock_name", "Date", "Price", "Open", "High", "Low", "Vol", "Change"] ∧
    Scraper.schema.map SchemaField.name =
      ["stock_name", "Date", "Open", "High", "Low", "Price", "Vol", "Change"] ∧
    Scraper.schema.map SchemaField.name ≠ DumpBigq.schema.map SchemaField.name :=
  ⟨rfl, rfl, by decide⟩

/-- C3 amended: `dump_bigq.py` creates the table against exactly the
claimed ordered schema — `stock_name` (STRING), `Date` (DATE), then
`Price, Open, High, Low, Vol, Change` as FLOAT; the scraper class
creates it with the same column names and types but with the decimal
columns ordered `Open, High, Low, Price` between `Date` and `Vol`. -/
theorem c3_amended_schema_orders :
    DumpBigq.schema.map (fun f => (f.name, f.ftype)) =
      [("stock_name", "STRING"), ("Date", "DATE"), ("Price", "FLOAT"), ("Open", "FLOAT"),
        ("High", "FLOAT"), ("Low", "FLOAT"), ("Vol", "FLOAT"), ("Change", "FLOAT")] ∧
    Scraper.schema.map (fun f => (f.name, f.ftype)) =
      [("stock_name", "STRING"), ("Date", "DATE"), ("Open", "FLOAT"), ("High", "FLOAT"),
        ("Low", "FLOAT"), ("Price", "FLOAT"), ("Vol", "FLOAT"), ("Change", "FLOAT")] ∧
    (Scraper.schema.map SchemaField.name).Perm (DumpBigq.schema.map SchemaField.name) :=
  ⟨rfl, rfl, by decide⟩

/-- C5: a scraped row enters the batch (headers zipped to cells with
`stock_name` injected) if and only if its cell count equals the learned
header count, and every accepted record carries exactly one pair per
header plus the injected `stock_name` — rows of any other width are
dropped whole, never truncated or padded. -/
theorem c5_row_acceptance (headers : List String) (name : String)
    (rows : List (List String)) (r : List (String × String)) :
    (r ∈ acceptedRows headers name rows ↔
      ∃ cols, cols ∈ rows ∧ cols.length = headers.length ∧ r = mkRecord headers name cols) ∧
    (r ∈ acceptedRows headers name rows → r.length = headers.length + 1) := by
  have hiff : r ∈ acceptedRows headers name rows ↔
      ∃ cols, cols ∈ rows ∧ cols.length = headers.length ∧ r = mkRecord headers name cols := by
    rw [acceptedRows, List.mem_filterMap]
    constructor
    · rintro ⟨cols, hmem, hif⟩
      by_cases hlen : cols.length = headers.length
      · rw [if_pos hlen] at hif
        exact ⟨cols, hmem, hlen, (Option.some.inj hif).symm⟩
      · rw [if_neg hlen] at hif
        exact Option.noConfusion hif
    · rintro ⟨cols, hmem, hlen, rfl⟩
      exact ⟨cols, hmem, by rw [if_pos hlen]⟩
  refine ⟨hiff, fun hr => ?_⟩
  obtain ⟨cols, _, hlen, rfl⟩ := hiff.mp hr
  simp [mkRecord, List.length_zip, hlen]

/-- Witness for C5: with headers `["Date", "Price"]`, only the
two-cell row of three candidates is accepted, as a three-pair record. -/
theorem c5_witness :
    ([("Date", "1"), ("Price", "2"), ("stock_name", "ACME")] ∈
      acceptedRows ["Date", "Price"] "ACME" [["1", "2"], ["1"], ["1", "2", "3"]]) ∧
    [("Date", "1"), ("Price", "2"), ("stock_name", "ACME")].length = 2 + 1 := by
  have h := c5_row_acceptance ["Date", "Price"] "ACME" [["1", "2"], ["1"], ["1", "2", "3"]]
    [("Date", "1"), ("Price", "2"), ("stock_name", "ACME")]
  have hmem := h.1.mpr ⟨["1", "2"], by simp, by decide, by decide⟩
  exact ⟨hmem, h.2 hmem⟩

/-- C6: `get_stock_link` resolves exactly three href cases, always
appending the fixed `-historical-data` suffix: an absolute href is kept
whole, a root-relative href is glued to the base URL, a path-relative
href gets a separating slash — with the spec's three examples. -/
theorem c6_url_resolution (href base_url : String) :
    (pyStartsWith href "http" = true →
      get_stock_link href base_url = href ++ "-historical-data") ∧
    (pyStartsWith href "http" = false → pyStartsWith href "/" = true →
      get_stock_link href base_url = base_url ++ href ++ "-historical-data") ∧
    (pyStartsWith href "http" = false → pyStartsWith href "/" = false →
      get_stock_link href base_url = base_url ++ "/" ++ href ++ "-historical-data") ∧
    get_stock_link "/equities/acme" "https://x.com" =
      "https://x.com/equities/acme-historical-data" ∧
    get_stock_link "https://y.com/acme" "https://x.com" = "https://y.com/acme-historical-data" ∧
    get_stock_link "acme" "https://x.com" = "https://x.com/acme-historical-data" := by
  refine ⟨?_, ?_, ?_, by decide, by decide, by decide⟩
  · intro h1
    rw [get_stock_link, if_pos h1]
  · intro h1 h2
    rw [get_stock_link, if_neg (by rw [h1]; exact Bool.false_ne_true), if_pos h2]
  · intro h1 h2
    rw [get_stock_link, if_neg (by rw [h1]; exact Bool.false_ne_true),
      if_neg (by rw [h2]; exact Bool.false_ne_true)]

/-- Witness for C6 applying each case at the spec's example hrefs. -/
theorem c6_witness :
    get_stock_link "https://y.com/acme" "https://x.com" = "https://y.com/acme-historical-data" ∧
    get_stock_link "/equities/acme" "https://x.com" =
      "https://x.com/equities/acme-historical-data" ∧
    get_stock_link "acme" "https://x.com" = "https://x.com/acme-historical-data" := by
  refine ⟨?_, ?_, ?_⟩
  · rw [(c6_url_resolution "https://y.com/acme" "https://x.com").1 (by decide)]
    decide
  · rw [(c6_url_resolution "/equities/acme" "https://x.com").2.1 (by decide) (by decide)]
    decide
  · rw [(c6_url_resolution "acme" "https://x.com").2.2.1 (by decide) (by decide)]
    decide

/-- C7: header discovery is idempotent across stocks — once
`self.headers` is non-empty, processing any further sequence of stock
pages (whatever their header sections contain) leaves the adopted
header set unchanged. -/
theorem c7_header_adoption_idempotent (st : ScrapeState)
    (stocks : List (String × PageResult)) (h : st.headers ≠ []) :
    (processList st stocks).headers = st.headers := by
  induction stocks generalizing st with
  | nil => rfl
  | cons p rest ih =>
    have hne : st.headers.isEmpty = false := by
      cases hh : st.headers with
      | nil => exact absurd hh h
      | cons a l => rfl
    have hstep : (processStock st p.1 p.2).headers = st.headers := by
      cases p.2 with
      | fetchError => rfl
      | noTable => rfl
      | table th tb =>
        cases tb <;> simp [processStock, hne]
    have hlist : processList st (p :: rest) = processList (processStock st p.1 p.2) rest := rfl
    rw [hlist, ih (processStock st p.1 p.2) (hstep ▸ h), hstep]

/-- Witness for C7: headers adopted as `["Date"]` survive a later page
with a different header section. -/
theorem c7_witness :
    (processList ⟨["Date"], []⟩
      [("X", PageResult.table (some ["Other", "Section"]) (some [["1"]]))]).headers =
      ["Date"] :=
  c7_header_adoption_idempotent ⟨["Date"], []⟩
    [("X", PageResult.table (some ["Other", "Section"]) (some [["1"]]))] (by decide)

/-- C9: per-stock failure isolation.  A missing listing table on the
landing page aborts the run with failure and nothing processed; a
per-stock fetch error or missing table leaves the state untouched and
the rest of the batch produces exactly what it would have produced
without that stock; a table without a body adds no records; in every
failure case the loop continues with the remaining stocks. -/
theorem c9_per_stock_failure_isolation (st : ScrapeState) (n : String)
    (th : Option (List String)) (pr : PageResult)
    (l1 l2 rest : List (String × PageResult)) :
    fetch_data none = (false, ⟨[], []⟩) ∧
    processStock st n PageResult.fetchError = st ∧
    processStock st n PageResult.noTable = st ∧
    (processStock st n (PageResult.table th none)).total_data = st.total_data ∧
    processList st (l1 ++ (n, PageResult.fetchError) :: l2) = processList st (l1 ++ l2) ∧
    processList st (l1 ++ (n, PageResult.noTable) :: l2) = processList st (l1 ++ l2) ∧
    processList st ((n, pr) :: rest) = processList (processStock st n pr) rest := by
  refine ⟨rfl, rfl, rfl, rfl, ?_, ?_, rfl⟩
  · induction l1 generalizing st with
    | nil => rfl
    | cons p t ih => exact ih (processStock st p.1 p.2)
  · induction l1 generalizing st with
    | nil => rfl
    | cons p t ih => exact ih (processStock st p.1 p.2)

/-- C8: `get_soup` raises only after exhausting the fixed budget of 3
attempts — an error outcome implies all three attempts failed, with two
3-second back-offs (6 seconds) spent between failures — and a page
whose first two attempts fail and whose third succeeds returns exactly
the document of an immediate success, again after two back-off
intervals. -/
theorem c8_fetch_retry_budget {α : Type} (attempts : Nat → Except String α)
    (e e0 e1 : String) (d : α) :
    ((get_soup attempts 3).1 = Except.error e →
      (∃ m0, attempts 0 = Except.error m0) ∧ (∃ m1, attempts 1 = Except.error m1) ∧
      attempts 2 = Except.error e ∧ (get_soup attempts 3).2 = 6) ∧
    (attempts 0 = Except.error e0 → attempts 1 = Except.error e1 →
      attempts 2 = Except.ok d →
      get_soup attempts 3 = (Except.ok (some d), 6) ∧
      (get_soup attempts 3).1 = (get_soup (fun _ => Except.ok d) 3).1) := by
  constructor
  · intro herr
    cases h0 : attempts 0 with
    | ok d0 =>
      rw [get_soup, show (3 : Nat) = 2 + 1 from rfl, get_soupGo, h0] at herr
      exact absurd herr (by simp)
    | error m0 =>
      cases h1 : attempts 1 with
      | ok d1 =>
        rw [get_soup, show (3 : Nat) = 2 + 1 from rfl, get_soupGo, h0] at herr
        norm_num at herr
        rw [show (2 : Nat) = 1 + 1 from rfl, get_soupGo, h1] at herr
        exact absurd herr (by simp)
      | error m1 =>
        cases h2 : attempts 2 with
        | ok d2 =>
          rw [get_soup, show (3 : Nat) = 2 + 1 from rfl, get_soupGo, h0] at herr
          norm_num at herr
          rw [show (2 : Nat) = 1 + 1 from rfl, get_soupGo, h1] at herr
          norm_num at herr
          rw [show (1 : Nat) = 0 + 1 from rfl, get_soupGo, h2] at herr
          exact absurd herr (by simp)
        | error m2 =>
          have hfull : get_soup attempts 3 = (Except.error m2, 6) := by
            rw [get_soup, show (3 : Nat) = 2 + 1 from rfl, get_soupGo, h0]
            norm_num
            rw [show (2 : Nat) = 1 + 1 from rfl, get_soupGo, h1]
            norm_num
            rw [show (1 : Nat) = 0 + 1 from rfl, get_soupGo, h2]
            norm_num
          rw [hfull] at herr
          have hm2 : m2 = e := Except.error.inj herr
          exact ⟨⟨m0, rfl⟩, ⟨m1, rfl⟩, hm2 ▸ rfl, by rw [hfull]⟩
  · intro h0 h1 h2
    have hfull : get_soup attempts 3 = (Except.ok (some d), 6) := by
      rw [get_soup, show (3 : Nat) = 2 + 1 from rfl, get_soupGo, h0]
      norm_num
      rw [show (2 : Nat) = 1 + 1 from rfl, get_soupGo, h1]
      norm_num
      rw [show (1 : Nat) = 0 + 1 from rfl, get_soupGo, h2]
    refine ⟨hfull, ?_⟩
    rw [hfull, get_soup, show (3 : Nat) = 2 + 1 from rfl, get_soupGo]

/-- Witness for C8: a page failing twice then succeeding yields the
immediate-success document after 6 seconds of back-off; a page failing
three times yields the final error after the same back-off. -/
theorem c8_witness :
    get_soup (fun i => if i < 2 then Except.error "boom" else Except.ok (5 : Nat)) 3 =
      (Except.ok (some 5), 6) ∧
    (∃ m1, (fun _ : Nat => (Except.error "down" : Except String Nat)) 1 = Except.error m1) ∧
    (get_soup (fun _ : Nat => (Except.error "down" : Except String Nat)) 3).2 = 6 := by
  have hA := (c8_fetch_retry_budget
    (fun i => if i < 2 then Except.error "boom" else Except.ok (5 : Nat))
    "x" "boom" "boom" 5).2 rfl rfl rfl
  have hB := (c8_fetch_retry_budget (fun _ : Nat => (Except.error "down" : Except String Nat))
    "down" "a" "b" 0).1 rfl
  exact ⟨hA.1, hB.2.1, hB.2.2.2⟩
